import Mathlib

/-!
Verification of the WinML adapter layer
(`src/winml/lib/Api.Core/WinMLAdapter.cpp`) against its natural-language
specification.  The ONNX protobuf messages, the WinRT feature descriptors
and the adapter's operations are shallowly embedded as executable Lean
definitions; each spec claim is settled by a theorem about those
definitions.
-/

namespace WinMLAdapter

/-- ONNX `TensorProto.DataType` enum value for half-precision floats
(`TensorProto_DataType_FLOAT16`). -/
def TensorProto_DataType_FLOAT16 : Int := 10

/-- `onnx::AttributeProto`: the fields the adapter reads
(`name()` and the integer payload `i()`). -/
structure AttributeProto where
  name : String
  i : Int
deriving DecidableEq, Repr

/-- `onnx::NodeProto`: the fields the adapter reads. -/
structure NodeProto where
  name : String
  op_type : String
  domain : String
  attribute_ : List AttributeProto
  output : List String
deriving DecidableEq, Repr

/-- `onnx::TensorProto` as it appears among graph initializers:
the adapter reads its `name()` and `data_type()`. -/
structure TensorProto where
  name : String
  data_type : Int
deriving DecidableEq, Repr

/-- `onnx::ValueInfoProto`: presence bits for `name` and `type`
(`has_name()`, `has_type()`) plus the name payload. -/
structure ValueInfoProto where
  has_name : Bool
  name : String
  has_type : Bool
deriving DecidableEq, Repr

/-- `onnx::GraphProto`: the fields the adapter reads. -/
structure GraphProto where
  has_name : Bool
  name : String
  node : List NodeProto
  initializer : List TensorProto
  input : List ValueInfoProto
  output : List ValueInfoProto
deriving DecidableEq, Repr

/-- `onnx::ModelProto`: the fields the adapter reads.  Protobuf getters on
an absent submessage return the default instance, so `graph` is stored
together with its presence bit `has_graph`. -/
structure ModelProto where
  has_graph : Bool
  graph : GraphProto
  has_producer_name : Bool
  producer_name : String
  has_domain : Bool
  domain : String
  has_doc_string : Bool
  doc_string : String
  has_model_version : Bool
  model_version : Int
  metadata_props : List (String × String)
deriving DecidableEq, Repr

/-- `winml::TensorKind`: the element-kind enum of a tensor/image feature. -/
inductive TensorKind where
  | Float
  | Float16
  | Int64
  | String
  | UInt8
deriving DecidableEq, Repr

/-- A live `winml::ILearningModelFeatureDescriptor`.  An image descriptor
answers `try_as<IImageFeatureDescriptor2>`, a tensor descriptor answers
`try_as<ITensorFeatureDescriptor>`; map and sequence descriptors answer
neither query. -/
inductive FeatureDescriptor where
  | image (name : String) (kind : TensorKind)
  | tensor (name : String) (kind : TensorKind)
  | map (name : String)
  | sequence (name : String)
deriving DecidableEq, Repr

/-- `descriptor.Name()`. -/
def FeatureDescriptor.featName : FeatureDescriptor → String
  | .image n _ => n
  | .tensor n _ => n
  | .map n => n
  | .sequence n => n

/-- Whether `try_as<winml::IImageFeatureDescriptor2>` succeeds. -/
def FeatureDescriptor.isImage : FeatureDescriptor → Bool
  | .image _ _ => true
  | _ => false

/-- Whether `try_as<winml::ITensorFeatureDescriptor>` succeeds on a
non-image descriptor. -/
def FeatureDescriptor.isTensor : FeatureDescriptor → Bool
  | .tensor _ _ => true
  | _ => false

/-- `WinMLAdapter::IsFeatureDescriptorFp16`: an image descriptor is fp16
iff its tensor kind is `Float16`; otherwise a tensor descriptor is fp16
iff its tensor kind is `Float16`; any other descriptor is not fp16. -/
def IsFeatureDescriptorFp16 : FeatureDescriptor → Bool
  | .image _ kind => kind = TensorKind.Float16
  | .tensor _ kind => kind = TensorKind.Float16
  | .map _ => false
  | .sequence _ => false

/-- The `DXGI_ERROR_UNSUPPORTED` failures thrown by
`EnsureModelDeviceCompatibility`, each carrying the name printed in the
failure message. -/
inductive CompatError where
  | fp16Input (name : String)
  | fp16Cast (nodeName : String)
  | fp16Initializer (name : String)
  | fp16Output (name : String)
deriving DecidableEq, Repr

/-- Check 1 / check 4 of `EnsureModelDeviceCompatibility`: scan a list of
live feature descriptors and throw on the first fp16 one, reporting its
name through `mkErr`. -/
def checkFeatures (mkErr : String → CompatError) :
    List FeatureDescriptor → Except CompatError Unit
  | [] => .ok ()
  | d :: rest =>
    if IsFeatureDescriptorFp16 d then
      .error (mkErr d.featName)
    else
      checkFeatures mkErr rest

/-- The inner attribute loop of check 2: for each attribute named `"to"`,
throw if its integer payload is `FLOAT16`, reporting the node's name. -/
def checkCastAttributes (node : NodeProto) :
    List AttributeProto → Except CompatError Unit
  | [] => .ok ()
  | a :: rest =>
    if a.name = "to" ∧ a.i = TensorProto_DataType_FLOAT16 then
      .error (.fp16Cast node.name)
    else
      checkCastAttributes node rest

/-- Check 2 of `EnsureModelDeviceCompatibility`: scan the graph nodes and,
for each `"Cast"` node in the empty (default) domain, run the attribute
loop. -/
def checkCastNodes : List NodeProto → Except CompatError Unit
  | [] => .ok ()
  | n :: rest =>
    if n.op_type = "Cast" ∧ n.domain = "" then
      match checkCastAttributes n n.attribute_ with
      | .error e => .error e
      | .ok () => checkCastNodes rest
    else
      checkCastNodes rest

/-- Check 3 of `EnsureModelDeviceCompatibility`: throw on the first graph
initializer whose data type is `FLOAT16`, reporting its name. -/
def checkInitializers : List TensorProto → Except CompatError Unit
  | [] => .ok ()
  | t :: rest =>
    if t.data_type = TensorProto_DataType_FLOAT16 then
      .error (.fp16Initializer t.name)
    else
      checkInitializers rest

/-- `WinMLAdapter::EnsureModelDeviceCompatibility`: when the device does
not support fp16, successively check the model's live input features, the
graph's default-domain `Cast`-to-fp16 nodes, the graph's initializers and
the model's live output features; when the device supports fp16 the check
passes unconditionally. -/
def EnsureModelDeviceCompatibility
    (inputFeatures outputFeatures : List FeatureDescriptor)
    (p_model_proto : ModelProto)
    (is_float16_supported : Bool) : Except CompatError Unit :=
  if is_float16_supported then
    .ok ()
  else do
    let graph := p_model_proto.graph
    checkFeatures CompatError.fp16Input inputFeatures
    checkCastNodes graph.node
    checkInitializers graph.initializer
    checkFeatures CompatError.fp16Output outputFeatures

/-! ### Model info extraction (`ModelInfo`) -/

/-- `ModelInfo::GetInitializers`: the names of the graph's initializers,
in declaration order. -/
def GetInitializers (model_proto : ModelProto) : List String :=
  model_proto.graph.initializer.map (fun t => t.name)

/-- The body of `ModelInfo::GetInputsWithoutInitializers`'s loop, given
the initializer-name list already collected: keep an input only when it
has both a name and a type and its name fails to match (via `strcmp`) any
initializer's name. -/
def inputsWithoutInitializersLoop (initializers : List String) :
    List ValueInfoProto → List ValueInfoProto
  | [] => []
  | input :: rest =>
    if input.has_name ∧ input.has_type then
      if initializers.any (fun ini => ini = input.name) then
        inputsWithoutInitializersLoop initializers rest
      else
        input :: inputsWithoutInitializersLoop initializers rest
    else
      inputsWithoutInitializersLoop initializers rest

/-- `ModelInfo::GetInputsWithoutInitializers`. -/
def GetInputsWithoutInitializers (model_proto : ModelProto) :
    List ValueInfoProto :=
  inputsWithoutInitializersLoop (GetInitializers model_proto)
    model_proto.graph.input

/-- `ModelInfo::GetOutputs`: the graph outputs that have both a name and
a type, in declaration order. -/
def GetOutputs (model_proto : ModelProto) : List ValueInfoProto :=
  model_proto.graph.output.filter (fun o => o.has_name ∧ o.has_type)

/-- One step of the metadata loop:
`model_metadata_[prop.key()] = prop.value()` on a map represented as an
association list — overwrite the entry when the key is present, append
otherwise. -/
def metadataInsert (m : List (String × String)) (key value : String) :
    List (String × String) :=
  if m.any (fun p => p.1 = key) then
    m.map (fun p => if p.1 = key then (key, value) else p)
  else
    m ++ [(key, value)]

/-- The metadata loop of `ModelInfo::Initialize`, inserting each
`metadata_props` entry in order into an initially empty map. -/
def buildMetadata (props : List (String × String)) :
    List (String × String) :=
  props.foldl (fun m p => metadataInsert m p.1 p.2) []

/-- The scalar fields computed by `ModelInfo::Initialize`, plus the
selected input/output `ValueInfoProto`s handed (in order) to the feature
descriptor factory. -/
structure ModelInfo where
  author : String
  name : String
  domain : String
  description : String
  version : Int
  model_metadata : List (String × String)
  input_features : List ValueInfoProto
  output_features : List ValueInfoProto
deriving DecidableEq, Repr

/-- `ModelInfo::Initialize`: metadata from `metadata_props`, inputs from
`GetInputsWithoutInitializers`, outputs from `GetOutputs`, and each scalar
field from the corresponding proto field when present, defaulting to the
empty string (or 0 for the version); the graph name additionally requires
the graph itself to be present. -/
def ModelInfo.Initialize (model_proto : ModelProto) : ModelInfo :=
  { author := if model_proto.has_producer_name
      then model_proto.producer_name else ""
    name := if model_proto.has_graph ∧ model_proto.graph.has_name
      then model_proto.graph.name else ""
    domain := if model_proto.has_domain then model_proto.domain else ""
    description := if model_proto.has_doc_string
      then model_proto.doc_string else ""
    version := if model_proto.has_model_version
      then model_proto.model_version else 0
    model_metadata := buildMetadata model_proto.metadata_props
    input_features := GetInputsWithoutInitializers model_proto
    output_features := GetOutputs model_proto }

/-! ### Model loading (`WinMLAdapter::CreateModelProto`) and the
`ModelProto` wrapper -/

/-- Outcome of `_sopen_s` on a path: `noent` when the path does not exist
(`errno == ENOENT`), `openFailed` for any other open failure
(`file_descriptor < 0`), or the file's byte content. -/
inductive OpenResult where
  | noent
  | openFailed
  | ok (bytes : List Nat)
deriving DecidableEq, Repr

/-- The HRESULT failure conditions thrown by `CreateModelProto`:
`__HRESULT_FROM_WIN32(ERROR_FILE_NOT_FOUND)`, `E_FAIL`, and the parse
failure `E_INVALIDARG`. -/
inductive LoadError where
  | fileNotFound
  | failed
  | invalidArg
deriving DecidableEq, Repr

/-- The COM wrapper `ModelProto` around a `unique_ptr<onnx::ModelProto>`:
`none` models the null state after `release()`. -/
structure ModelProtoWrapper where
  model_proto_ : Option ModelProto
deriving DecidableEq, Repr

/-- `ModelProto::get`: observe the held pointer without transferring
ownership. -/
def ModelProtoWrapper.get (w : ModelProtoWrapper) : Option ModelProto :=
  w.model_proto_

/-- `ModelProto::detach` (`unique_ptr::release`): return the held pointer
and leave the wrapper holding null. -/
def ModelProtoWrapper.detach (w : ModelProtoWrapper) :
    Option ModelProto × ModelProtoWrapper :=
  (w.model_proto_, { model_proto_ := none })

/-- The path variant of `WinMLAdapter::CreateModelProto`, over a file
system `fs` mapping paths to open outcomes and the protobuf deserializer
`parse` (`ModelProto::ParseFromZeroCopyStream`, which yields `none` when
the bytes do not deserialize into a model): throw file-not-found when
`errno` is `ENOENT`, `E_FAIL` on any other failed open, `E_INVALIDARG`
when the stream fails to parse, else wrap the parsed model. -/
def CreateModelProtoFromPath (fs : String → OpenResult)
    (parse : List Nat → Option ModelProto) (path : String) :
    Except LoadError ModelProtoWrapper :=
  match fs path with
  | .noent => .error .fileNotFound
  | .openFailed => .error .failed
  | .ok bytes =>
    match parse bytes with
    | none => .error .invalidArg
    | some model_proto_inner => .ok { model_proto_ := some model_proto_inner }

/-- The stream variant of `WinMLAdapter::CreateModelProto`: parse the
stream's bytes, throwing `E_INVALIDARG` when they fail to parse, else wrap
the parsed model. -/
def CreateModelProtoFromStream (parse : List Nat → Option ModelProto)
    (bytes : List Nat) : Except LoadError ModelProtoWrapper :=
  match parse bytes with
  | none => .error .invalidArg
  | some model_proto_inner => .ok { model_proto_ := some model_proto_inner }

/-- The state of an engine session as far as `LoadModel` is concerned:
the model proto the session took ownership of, if any. -/
structure SessionState where
  loaded_model : Option ModelProto
deriving DecidableEq, Repr

/-- `InferenceSession::LoadModel`: detach the proto from the caller's
wrapper and hand ownership to the session. -/
def LoadModel (_session : SessionState) (w : ModelProtoWrapper) :
    SessionState × ModelProtoWrapper :=
  let d := w.detach
  ({ loaded_model := d.1 }, d.2)

/-! ### Map-type classification
(`WinMLAdapter::GetMapType`, `WinMLAdapter::GetVectorMapType`) -/

/-- The `onnxruntime::MLDataType` of an `OrtValue`, as far as the map
classification lookups distinguish them; `other` stands for every data
type outside the closed matched set (tensors, sequences, unknown types). -/
inductive OrtDataType where
  | mapStringToString
  | mapStringToInt64
  | mapStringToFloat
  | mapStringToDouble
  | mapInt64ToString
  | mapInt64ToInt64
  | mapInt64ToFloat
  | mapInt64ToDouble
  | vectorMapStringToFloat
  | vectorMapInt64ToFloat
  | other (id : Nat)
deriving DecidableEq, Repr

/-- `ONNXTensorElementDataType`, restricted to the values these lookups
produce. -/
inductive ONNXTensorElementDataType where
  | undefined
  | string
  | int64
  | float
  | double
deriving DecidableEq, Repr

/-- The HRESULT values the adapter's methods return. -/
inductive HResult where
  | S_OK
  | E_OUTOFMEMORY
deriving DecidableEq, Repr

/-- `WinMLAdapter::GetMapType`: initialize both out-parameters to
undefined, then pattern-match the value's type against the eight
supported map types; always return `S_OK`. -/
def GetMapType (t : OrtDataType) :
    HResult × ONNXTensorElementDataType × ONNXTensorElementDataType :=
  match t with
  | .mapStringToString => (.S_OK, .string, .string)
  | .mapStringToInt64 => (.S_OK, .string, .int64)
  | .mapStringToFloat => (.S_OK, .string, .float)
  | .mapStringToDouble => (.S_OK, .string, .double)
  | .mapInt64ToString => (.S_OK, .int64, .string)
  | .mapInt64ToInt64 => (.S_OK, .int64, .int64)
  | .mapInt64ToFloat => (.S_OK, .int64, .float)
  | .mapInt64ToDouble => (.S_OK, .int64, .double)
  | _ => (.S_OK, .undefined, .undefined)

/-- `WinMLAdapter::GetVectorMapType`: initialize both out-parameters to
undefined, then pattern-match the value's type against the two supported
vector-of-map types; always return `S_OK`. -/
def GetVectorMapType (t : OrtDataType) :
    HResult × ONNXTensorElementDataType × ONNXTensorElementDataType :=
  match t with
  | .vectorMapStringToFloat => (.S_OK, .string, .float)
  | .vectorMapInt64ToFloat => (.S_OK, .int64, .float)
  | _ => (.S_OK, .undefined, .undefined)

/-! ### I/O binding (`IOBinding::BindOutput`, `IOBinding::GetOutputs`) -/

/-- An `OrtValue` slot held by the engine binding: `empty` models the
default-constructed `OrtValue {}` bound for an unbound output. -/
inductive OrtValueSlot where
  | empty
  | value (id : Nat)
deriving DecidableEq, Repr

/-- Modelled from the spec: the engine's `onnxruntime::IOBinding`
(declared outside this file) keeps the bound output names and their value
slots; binding an output attaches the named value as a new slot, and an
output-values fetch returns one slot per bound output.  Binding the
default-constructed empty value records an empty slot. -/
structure InnerIOBinding where
  output_names : List String
  outputs : List OrtValueSlot
deriving DecidableEq, Repr

/-- Modelled from the spec: `onnxruntime::IOBinding::BindOutput` attaches
a named output value slot. -/
def InnerIOBinding.bindOutput (b : InnerIOBinding) (name : String)
    (v : OrtValueSlot) : InnerIOBinding :=
  { output_names := b.output_names ++ [name]
    outputs := b.outputs ++ [v] }

/-- The adapter's `IOBinding::BindOutput`: a null value pointer (here
`none`) means an unbound output and binds a default-constructed empty
`OrtValue`; otherwise bind the given value.  Returns `S_OK` in either
case. -/
def BindOutput (b : InnerIOBinding) (name : String)
    (ort_value : Option OrtValueSlot) : HResult × InnerIOBinding :=
  match ort_value with
  | none => (.S_OK, b.bindOutput name .empty)
  | some v => (.S_OK, b.bindOutput name v)

/-- The adapter's `IOBinding::GetOutputs`: rebuild the weak-reference
vector from the engine binding's output slots, one entry per slot. -/
def IOBindingGetOutputs (b : InnerIOBinding) : List OrtValueSlot :=
  b.outputs

/-- Fold a sequence of output bindings (name, optional value) through the
adapter's `BindOutput`, starting from a given binding state. -/
def bindOutputs (b : InnerIOBinding)
    (binds : List (String × Option OrtValueSlot)) : InnerIOBinding :=
  binds.foldl (fun b p => (BindOutput b p.1 p.2).2) b

/-! ### Predicates describing the fp16 conditions of the compatibility
check -/

/-- Some live feature descriptor in the list is half-precision typed. -/
def hasFp16Feature (ds : List FeatureDescriptor) : Prop :=
  ∃ d ∈ ds, IsFeatureDescriptorFp16 d = true

/-- The node is a default-domain `"Cast"` node with a `"to"` attribute
equal to `FLOAT16`. -/
def isFp16CastNode (n : NodeProto) : Prop :=
  n.op_type = "Cast" ∧ n.domain = "" ∧
    ∃ a ∈ n.attribute_, a.name = "to" ∧ a.i = TensorProto_DataType_FLOAT16

/-- Some node in the list is a default-domain `Cast`-to-fp16 node. -/
def hasFp16Cast (ns : List NodeProto) : Prop :=
  ∃ n ∈ ns, isFp16CastNode n

/-- Some initializer in the list has data type `FLOAT16`. -/
def hasFp16Initializer (ts : List TensorProto) : Prop :=
  ∃ t ∈ ts, t.data_type = TensorProto_DataType_FLOAT16

/-- The error names an element of the model that actually offends:
an fp16 input/output feature with that name, a default-domain
`Cast`-to-fp16 node with that name, or an fp16 initializer with that
name. -/
def offendingNamed (ins outs : List FeatureDescriptor) (m : ModelProto) :
    CompatError → Prop
  | .fp16Input n => ∃ d ∈ ins, IsFeatureDescriptorFp16 d = true ∧ d.featName = n
  | .fp16Cast n => ∃ node ∈ m.graph.node, isFp16CastNode node ∧ node.name = n
  | .fp16Initializer n =>
      ∃ t ∈ m.graph.initializer,
        t.data_type = TensorProto_DataType_FLOAT16 ∧ t.name = n
  | .fp16Output n => ∃ d ∈ outs, IsFeatureDescriptorFp16 d = true ∧ d.featName = n

/-! ### Characterizations of the four scans -/

lemma checkFeatures_ok_iff (mk : String → CompatError)
    (ds : List FeatureDescriptor) :
    checkFeatures mk ds = .ok () ↔ ¬ hasFp16Feature ds := by
  induction ds with
  | nil => simp [checkFeatures, hasFp16Feature]
  | cons d rest ih =>
    by_cases h : IsFeatureDescriptorFp16 d = true
    · simp [checkFeatures, h, hasFp16Feature]
    · simp only [checkFeatures, h, if_false, Bool.false_eq_true, if_neg,
        not_false_iff, ih, hasFp16Feature, List.mem_cons]
      constructor
      · rintro hn ⟨x, hx | hx, hfp⟩
        · exact h (hx ▸ hfp)
        · exact hn ⟨x, hx, hfp⟩
      · rintro hn ⟨x, hx, hfp⟩
        exact hn ⟨x, Or.inr hx, hfp⟩

lemma checkFeatures_error (mk : String → CompatError)
    (ds : List FeatureDescriptor) (e : CompatError)
    (h : checkFeatures mk ds = .error e) :
    ∃ d ∈ ds, IsFeatureDescriptorFp16 d = true ∧ e = mk d.featName := by
  induction ds with
  | nil => simp [checkFeatures] at h
  | cons d rest ih =>
    by_cases hd : IsFeatureDescriptorFp16 d = true
    · simp only [checkFeatures, hd, if_true] at h
      exact ⟨d, List.mem_cons_self d rest, hd, (Except.error.inj h).symm⟩
    · simp only [checkFeatures, hd, Bool.false_eq_true, if_neg,
        not_false_iff] at h
      obtain ⟨x, hx, hfp, he⟩ := ih h
      exact ⟨x, List.mem_cons_of_mem d hx, hfp, he⟩

lemma checkCastAttributes_ok_iff (n : NodeProto)
    (as : List AttributeProto) :
    checkCastAttributes n as = .ok () ↔
      ¬ ∃ a ∈ as, a.name = "to" ∧ a.i = TensorProto_DataType_FLOAT16 := by
  induction as with
  | nil => simp [checkCastAttributes]
  | cons a rest ih =>
    by_cases h : a.name = "to" ∧ a.i = TensorProto_DataType_FLOAT16
    · simp [checkCastAttributes, h]
    · simp only [checkCastAttributes, if_neg h, ih, List.mem_cons]
      constructor
      · rintro hn ⟨x, hx | hx, hto⟩
        · exact h (hx ▸ hto)
        · exact hn ⟨x, hx, hto⟩
      · rintro hn ⟨x, hx, hto⟩
        exact hn ⟨x, Or.inr hx, hto⟩

lemma checkCastAttributes_error (n : NodeProto)
    (as : List AttributeProto) (e : CompatError)
    (h : checkCastAttributes n as = .error e) :
    e = .fp16Cast n.name ∧
      ∃ a ∈ as, a.name = "to" ∧ a.i = TensorProto_DataType_FLOAT16 := by
  induction as with
  | nil => simp [checkCastAttributes] at h
  | cons a rest ih =>
    by_cases ha : a.name = "to" ∧ a.i = TensorProto_DataType_FLOAT16
    · simp only [checkCastAttributes, if_pos ha] at h
      exact ⟨(Except.error.inj h).symm, a, List.mem_cons_self a rest, ha⟩
    · simp only [checkCastAttributes, if_neg ha] at h
      obtain ⟨he, x, hx, hto⟩ := ih h
      exact ⟨he, x, List.mem_cons_of_mem a hx, hto⟩

lemma checkCastNodes_ok_iff (ns : List NodeProto) :
    checkCastNodes ns = .ok () ↔ ¬ hasFp16Cast ns := by
  induction ns with
  | nil => simp [checkCastNodes, hasFp16Cast]
  | cons n rest ih =>
    by_cases hn : n.op_type = "Cast" ∧ n.domain = ""
    · rcases hattr : checkCastAttributes n n.attribute_ with e | u
      · simp only [checkCastNodes, if_pos hn, hattr]
        obtain ⟨-, x, hx, hto⟩ := checkCastAttributes_error n _ e hattr
        constructor
        · intro hcontra; exact absurd hcontra (by simp)
        · intro hno
          exact absurd ⟨n, List.mem_cons_self n rest, hn.1, hn.2, x, hx, hto⟩ hno
      · cases u
        simp only [checkCastNodes, if_pos hn, hattr, ih, hasFp16Cast,
          List.mem_cons]
        have hnone : ¬ ∃ a ∈ n.attribute_,
            a.name = "to" ∧ a.i = TensorProto_DataType_FLOAT16 :=
          (checkCastAttributes_ok_iff n n.attribute_).mp hattr
        constructor
        · rintro hno ⟨x, hx | hx, hcast⟩
          · exact hnone (hx ▸ hcast.2.2)
          · exact hno ⟨x, hx, hcast⟩
        · rintro hno ⟨x, hx, hcast⟩
          exact hno ⟨x, Or.inr hx, hcast⟩
    · simp only [checkCastNodes, if_neg hn, ih, hasFp16Cast, List.mem_cons]
      constructor
      · rintro hno ⟨x, hx | hx, hcast⟩
        · exact hn (hx ▸ ⟨hcast.1, hcast.2.1⟩)
        · exact hno ⟨x, hx, hcast⟩
      · rintro hno ⟨x, hx, hcast⟩
        exact hno ⟨x, Or.inr hx, hcast⟩

lemma checkCastNodes_error (ns : List NodeProto) (e : CompatError)
    (h : checkCastNodes ns = .error e) :
    ∃ n ∈ ns, isFp16CastNode n ∧ e = .fp16Cast n.name := by
  induction ns with
  | nil => simp [checkCastNodes] at h
  | cons n rest ih =>
    by_cases hn : n.op_type = "Cast" ∧ n.domain = ""
    · rcases hattr : checkCastAttributes n n.attribute_ with e' | u
      · simp only [checkCastNodes, if_pos hn, hattr] at h
        obtain ⟨he, x, hx, hto⟩ := checkCastAttributes_error n _ e' hattr
        exact ⟨n, List.mem_cons_self n rest,
          ⟨hn.1, hn.2, x, hx, hto⟩, (Except.error.inj h) ▸ he⟩
      · cases u
        simp only [checkCastNodes, if_pos hn, hattr] at h
        obtain ⟨x, hx, hcast, he⟩ := ih h
        exact ⟨x, List.mem_cons_of_mem n hx, hcast, he⟩
    · simp only [checkCastNodes, if_neg hn] at h
      obtain ⟨x, hx, hcast, he⟩ := ih h
      exact ⟨x, List.mem_cons_of_mem n hx, hcast, he⟩

lemma checkInitializers_ok_iff (ts : List TensorProto) :
    checkInitializers ts = .ok () ↔ ¬ hasFp16Initializer ts := by
  induction ts with
  | nil => simp [checkInitializers, hasFp16Initializer]
  | cons t rest ih =>
    by_cases h : t.data_type = TensorProto_DataType_FLOAT16
    · simp [checkInitializers, h, hasFp16Initializer]
    · simp only [checkInitializers, if_neg h, ih, hasFp16Initializer,
        List.mem_cons]
      constructor
      · rintro hn ⟨x, hx | hx, hdt⟩
        · exact h (hx ▸ hdt)
        · exact hn ⟨x, hx, hdt⟩
      · rintro hn ⟨x, hx, hdt⟩
        exact hn ⟨x, Or.inr hx, hdt⟩

lemma checkInitializers_error (ts : List TensorProto) (e : CompatError)
    (h : checkInitializers ts = .error e) :
    ∃ t ∈ ts, t.data_type = TensorProto_DataType_FLOAT16 ∧
      e = .fp16Initializer t.name := by
  induction ts with
  | nil => simp [checkInitializers] at h
  | cons t rest ih =>
    by_cases ht : t.data_type = TensorProto_DataType_FLOAT16
    · simp only [checkInitializers, if_pos ht] at h
      exact ⟨t, List.mem_cons_self t rest, ht, (Except.error.inj h).symm⟩
    · simp only [checkInitializers, if_neg ht] at h
      obtain ⟨x, hx, hdt, he⟩ := ih h
      exact ⟨x, List.mem_cons_of_mem t hx, hdt, he⟩

/-- Sequencing of unit-valued `Except` computations succeeds iff both
parts do. -/
lemma seqE_ok_iff (x y : Except CompatError Unit) :
    (x >>= fun _ => y) = .ok () ↔ (x = .ok () ∧ y = .ok ()) := by
  cases x with
  | error e => simp [Bind.bind, Except.bind]
  | ok u => cases u; simp [Bind.bind, Except.bind]

/-- Sequencing of unit-valued `Except` computations fails with `e` iff
the first part does, or the first part succeeds and the second fails
with `e`. -/
lemma seqE_error_iff (x y : Except CompatError Unit) (e : CompatError) :
    (x >>= fun _ => y) = .error e ↔
      (x = .error e ∨ (x = .ok () ∧ y = .error e)) := by
  cases x with
  | error e' => simp [Bind.bind, Except.bind]
  | ok u => cases u; simp [Bind.bind, Except.bind]

/-- `EnsureModelDeviceCompatibility` on an fp16-incapable device is the
sequence of the four scans. -/
lemma ensure_false_eq (ins outs : List FeatureDescriptor) (m : ModelProto) :
    EnsureModelDeviceCompatibility ins outs m false =
      (checkFeatures CompatError.fp16Input ins >>= fun _ =>
       checkCastNodes m.graph.node >>= fun _ =>
       checkInitializers m.graph.initializer >>= fun _ =>
       checkFeatures CompatError.fp16Output outs) := rfl

/-! ### Sample values used by witnesses and counterexamples -/

/-- A graph with no declared content. -/
def emptyGraph : GraphProto :=
  { has_name := false, name := "", node := [], initializer := []
    input := [], output := [] }

/-- A model with a present but empty graph and no other fields set. -/
def emptyModel : ModelProto :=
  { has_graph := true, graph := emptyGraph
    has_producer_name := false, producer_name := ""
    has_domain := false, domain := ""
    has_doc_string := false, doc_string := ""
    has_model_version := false, model_version := 0
    metadata_props := [] }

/-- A `Cast`-to-fp16 node living in a non-default operator domain. -/
def nonDefaultDomainCastNode : NodeProto :=
  { name := "cast0", op_type := "Cast", domain := "com.microsoft"
    attribute_ := [{ name := "to", i := 10 }], output := [] }

/-- A model whose graph holds exactly `nonDefaultDomainCastNode`. -/
def nonDefaultDomainCastModel : ModelProto :=
  { emptyModel with graph := { emptyGraph with node := [nonDefaultDomainCastNode] } }

/-! ### Claims about the compatibility check -/

/-- C1: with the fp16-supported flag set the compatibility check succeeds
unconditionally; with the flag cleared it succeeds exactly when no input
feature is fp16, no default-domain `Cast` node casts to fp16, no
initializer is fp16 and no output feature is fp16; and every failure is
the unsupported condition carrying the name of an offending element. -/
theorem C1_device_compatibility (ins outs : List FeatureDescriptor)
    (m : ModelProto) :
    EnsureModelDeviceCompatibility ins outs m true = .ok () ∧
    (EnsureModelDeviceCompatibility ins outs m false = .ok () ↔
      ¬ (hasFp16Feature ins ∨ hasFp16Cast m.graph.node ∨
         hasFp16Initializer m.graph.initializer ∨ hasFp16Feature outs)) ∧
    (∀ e, EnsureModelDeviceCompatibility ins outs m false = .error e →
      offendingNamed ins outs m e) := by
  refine ⟨rfl, ?_, ?_⟩
  · rw [ensure_false_eq, seqE_ok_iff, seqE_ok_iff, seqE_ok_iff,
      checkFeatures_ok_iff, checkCastNodes_ok_iff, checkInitializers_ok_iff,
      checkFeatures_ok_iff]
    tauto
  · intro e he
    rw [ensure_false_eq, seqE_error_iff] at he
    rcases he with h1 | ⟨-, he⟩
    · obtain ⟨d, hd, hfp, he⟩ := checkFeatures_error _ _ _ h1
      subst he
      exact ⟨d, hd, hfp, rfl⟩
    · rw [seqE_error_iff] at he
      rcases he with h2 | ⟨-, he⟩
      · obtain ⟨n, hn, hcast, he⟩ := checkCastNodes_error _ _ h2
        subst he
        exact ⟨n, hn, hcast, rfl⟩
      · rw [seqE_error_iff] at he
        rcases he with h3 | ⟨-, he⟩
        · obtain ⟨t, ht, hdt, he⟩ := checkInitializers_error _ _ h3
          subst he
          exact ⟨t, ht, hdt, rfl⟩
        · obtain ⟨d, hd, hfp, he⟩ := checkFeatures_error _ _ _ he
          subst he
          exact ⟨d, hd, hfp, rfl⟩

/-- Witness for C1: on a model whose only input feature is an fp16 tensor
named `input0`, the check on an fp16-incapable device fails naming that
input. -/
theorem C1_device_compatibility_witness :
    offendingNamed [FeatureDescriptor.tensor "input0" TensorKind.Float16]
      [] emptyModel (CompatError.fp16Input "input0") :=
  (C1_device_compatibility
    [FeatureDescriptor.tensor "input0" TensorKind.Float16] [] emptyModel).2.2
    (CompatError.fp16Input "input0") rfl

/-- C2: a `Cast` node whose `"to"` attribute is `FLOAT16`, alone in a
model with no other fp16 source, makes the fp16-incapable check fail
exactly when its operator domain is the empty (default) domain — with a
non-empty domain the check passes. -/
theorem C2_cast_domain (n : NodeProto) (m : ModelProto)
    (hop : n.op_type = "Cast")
    (hto : ∃ a ∈ n.attribute_,
      a.name = "to" ∧ a.i = TensorProto_DataType_FLOAT16)
    (hnode : m.graph.node = [n]) (hinit : m.graph.initializer = []) :
    (EnsureModelDeviceCompatibility [] [] m false = .ok () ↔
      n.domain ≠ "") := by
  rw [ensure_false_eq, seqE_ok_iff, seqE_ok_iff, seqE_ok_iff, hnode, hinit]
  rw [checkCastNodes_ok_iff]
  have hcast : hasFp16Cast [n] ↔ n.domain = "" := by
    unfold hasFp16Cast isFp16CastNode
    simp [hop, hto]
  simp [checkFeatures, checkInitializers, hcast]

/-- Witness for C2: a `Cast`-to-fp16 node in the `com.microsoft` domain
does not by itself make the check fail. -/
theorem C2_cast_domain_witness :
    (EnsureModelDeviceCompatibility [] [] nonDefaultDomainCastModel false
      = .ok () ↔ nonDefaultDomainCastNode.domain ≠ "") :=
  C2_cast_domain nonDefaultDomainCastNode nonDefaultDomainCastModel rfl
    ⟨{ name := "to", i := 10 }, by decide, rfl, rfl⟩ rfl rfl

/-! ### Claims about model-info extraction -/

/-- The input-feature selection as the spec sentence states it: the
graph's declared inputs excluding any whose name appears among the
graph's initializers (with no requirement that the input have a declared
name and type). -/
def specInputsWithoutInitializers (m : ModelProto) : List ValueInfoProto :=
  m.graph.input.filter
    (fun i => !((GetInitializers m).any (fun ini => ini = i.name)))

/-- A model declaring one named but untyped input and no initializers. -/
def untypedInputModel : ModelProto :=
  { emptyModel with graph :=
    { emptyGraph with input := [{ has_name := true, name := "x", has_type := false }] } }

/-- The input loop selects exactly the inputs that have both a name and a
type and are not initializers, in order. -/
lemma inputsLoop_eq_filter (inits : List String) (xs : List ValueInfoProto) :
    inputsWithoutInitializersLoop inits xs =
      xs.filter (fun i => i.has_name && i.has_type &&
        !(inits.any (fun ini => ini = i.name))) := by
  induction xs with
  | nil => rfl
  | cons x rest ih =>
    rw [List.filter_cons]
    simp only [inputsWithoutInitializersLoop]
    by_cases h1 : x.has_name ∧ x.has_type
    · by_cases h2 : (inits.any (fun ini => ini = x.name)) = true
      · rw [if_pos h1, if_pos h2, ih, if_neg (by simp [h1.1, h1.2, h2])]
      · rw [if_pos h1, if_neg h2, ih, if_pos (by simp [h1.1, h1.2, h2])]
    · rw [if_neg h1, ih, if_neg ?_]
      intro hc
      simp only [Bool.and_eq_true] at hc
      exact h1 ⟨hc.1.1, hc.1.2⟩

/-- Counterexample for C3: the code excludes a named but untyped input
even when it is not an initializer, so the extracted input collection is
not "declared inputs minus initializers" as the claim states. -/
theorem C3_counterexample :
    (ModelInfo.Initialize untypedInputModel).input_features ≠
      specInputsWithoutInitializers untypedInputModel := by
  decide

/-- C3 (amended): the extracted input-feature collection consists of the
declared inputs that have both a name and a type and whose name is not an
initializer's name; the output collection consists of the declared
outputs that have both a name and a type; both in declaration order
(sublists of the declarations). -/
theorem C3_feature_selection (m : ModelProto) :
    (ModelInfo.Initialize m).input_features =
      m.graph.input.filter (fun i => i.has_name && i.has_type &&
        !((GetInitializers m).any (fun ini => ini = i.name))) ∧
    (ModelInfo.Initialize m).output_features =
      m.graph.output.filter (fun o => o.has_name ∧ o.has_type) ∧
    List.Sublist (ModelInfo.Initialize m).input_features m.graph.input ∧
    List.Sublist (ModelInfo.Initialize m).output_features m.graph.output := by
  have hin : (ModelInfo.Initialize m).input_features =
      m.graph.input.filter (fun i => i.has_name && i.has_type &&
        !((GetInitializers m).any (fun ini => ini = i.name))) :=
    inputsLoop_eq_filter (GetInitializers m) m.graph.input
  refine ⟨hin, rfl, ?_, ?_⟩
  · rw [hin]; exact List.filter_sublist _
  · exact List.filter_sublist _

/-! ### Claims about the scalar model-info fields and metadata -/

/-- Folding the metadata loop over properties with pairwise distinct keys
appends them to any accumulator whose keys are disjoint from theirs. -/
lemma metadataFold_append (props : List (String × String)) :
    ∀ acc : List (String × String),
      (props.map Prod.fst).Nodup →
      (∀ k ∈ props.map Prod.fst, ¬ acc.any (fun p => p.1 = k)) →
      props.foldl (fun m p => metadataInsert m p.1 p.2) acc = acc ++ props := by
  induction props with
  | nil => intro acc _ _; simp
  | cons p rest ih =>
    intro acc hnd hdisj
    have hacc : ¬ acc.any (fun q => q.1 = p.1) := hdisj p.1 (by simp)
    have hins : metadataInsert acc p.1 p.2 = acc ++ [p] := by
      simp [metadataInsert, hacc]
    have hnd' : (rest.map Prod.fst).Nodup := (List.nodup_cons.mp hnd).2
    have hp : p.1 ∉ rest.map Prod.fst := (List.nodup_cons.mp hnd).1
    rw [List.foldl_cons, hins, ih (acc ++ [p]) hnd' ?_]
    · simp
    · intro k hk
      rw [List.any_append]
      simp only [Bool.or_eq_true, not_or]
      refine ⟨hdisj k ?_, ?_⟩
      · rw [List.map_cons]
        exact List.mem_cons_of_mem _ hk
      · simp only [List.any_cons, List.any_nil, Bool.or_false,
          decide_eq_true_eq]
        intro hc
        exact hp (by rw [hc]; exact hk)

/-- The metadata loop reproduces the properties verbatim when their keys
are pairwise distinct. -/
lemma buildMetadata_eq (props : List (String × String))
    (hnd : (props.map Prod.fst).Nodup) : buildMetadata props = props := by
  simpa [buildMetadata] using metadataFold_append props [] hnd (by simp)

/-- A model with every scalar field present and one metadata entry. -/
def fullModel : ModelProto :=
  { has_graph := true
    graph := { emptyGraph with has_name := true, name := "mnist" }
    has_producer_name := true, producer_name := "the author"
    has_domain := true, domain := "org.example"
    has_doc_string := true, doc_string := "a description"
    has_model_version := true, model_version := 5
    metadata_props := [("key1", "v1")] }

/-- C4: the extracted model info exposes producer name as author, the
model domain, the graph name, the doc string as description and the model
version verbatim when present, with empty-string/zero defaults when the
corresponding field (or the graph itself, for the name) is absent, and
reproduces the metadata key/value pairs verbatim. -/
theorem C4_model_info_fields (m : ModelProto) :
    (m.has_producer_name = true →
      (ModelInfo.Initialize m).author = m.producer_name) ∧
    (m.has_producer_name = false → (ModelInfo.Initialize m).author = "") ∧
    (m.has_domain = true → (ModelInfo.Initialize m).domain = m.domain) ∧
    (m.has_domain = false → (ModelInfo.Initialize m).domain = "") ∧
    (m.has_graph = true → m.graph.has_name = true →
      (ModelInfo.Initialize m).name = m.graph.name) ∧
    (m.has_graph = false → (ModelInfo.Initialize m).name = "") ∧
    (m.graph.has_name = false → (ModelInfo.Initialize m).name = "") ∧
    (m.has_doc_string = true →
      (ModelInfo.Initialize m).description = m.doc_string) ∧
    (m.has_doc_string = false → (ModelInfo.Initialize m).description = "") ∧
    (m.has_model_version = true →
      (ModelInfo.Initialize m).version = m.model_version) ∧
    (m.has_model_version = false → (ModelInfo.Initialize m).version = 0) ∧
    ((m.metadata_props.map Prod.fst).Nodup →
      (ModelInfo.Initialize m).model_metadata = m.metadata_props) := by
  refine ⟨?_, ?_, ?_, ?_, ?_, ?_, ?_, ?_, ?_, ?_, ?_, ?_⟩
  · intro h; simp [ModelInfo.Initialize, h]
  · intro h; simp [ModelInfo.Initialize, h]
  · intro h; simp [ModelInfo.Initialize, h]
  · intro h; simp [ModelInfo.Initialize, h]
  · intro h h'; simp [ModelInfo.Initialize, h, h']
  · intro h; simp [ModelInfo.Initialize, h]
  · intro h; simp [ModelInfo.Initialize, h]
  · intro h; simp [ModelInfo.Initialize, h]
  · intro h; simp [ModelInfo.Initialize, h]
  · intro h; simp [ModelInfo.Initialize, h]
  · intro h; simp [ModelInfo.Initialize, h]
  · intro h
    simp only [ModelInfo.Initialize]
    exact buildMetadata_eq m.metadata_props h

/-- Witness for C4: on a fully populated model the extracted info exposes
the author, the version and the metadata entry verbatim. -/
theorem C4_model_info_fields_witness :
    (ModelInfo.Initialize fullModel).author = "the author" ∧
    (ModelInfo.Initialize fullModel).version = 5 ∧
    (ModelInfo.Initialize fullModel).model_metadata = [("key1", "v1")] :=
  ⟨(C4_model_info_fields fullModel).1 rfl,
   (C4_model_info_fields fullModel).2.2.2.2.2.2.2.2.2.1 rfl,
   (C4_model_info_fields fullModel).2.2.2.2.2.2.2.2.2.2.2 (by decide)⟩

/-! ### Claims about model loading and ownership transfer -/

/-- C5: loading from a path fails with the not-found condition exactly
when the path does not exist; with the parse-failure condition exactly
when the opened bytes do not deserialize; and otherwise yields a fresh
wrapper owning the parsed model.  The stream variant has the same
parse-failure contract. -/
theorem C5_create_model_proto (fs : String → OpenResult)
    (parse : List Nat → Option ModelProto) (path : String) :
    (CreateModelProtoFromPath fs parse path = .error .fileNotFound ↔
      fs path = .noent) ∧
    (∀ bytes, fs path = .ok bytes →
      (CreateModelProtoFromPath fs parse path = .error .invalidArg ↔
        parse bytes = none)) ∧
    (∀ bytes mp, fs path = .ok bytes → parse bytes = some mp →
      CreateModelProtoFromPath fs parse path =
        .ok { model_proto_ := some mp }) ∧
    (∀ bytes, CreateModelProtoFromStream parse bytes = .error .invalidArg ↔
      parse bytes = none) := by
  refine ⟨?_, ?_, ?_, ?_⟩
  · cases hfs : fs path with
    | noent => simp [CreateModelProtoFromPath, hfs]
    | openFailed => simp [CreateModelProtoFromPath, hfs]
    | ok bytes =>
      cases hp : parse bytes with
      | none => simp [CreateModelProtoFromPath, hfs, hp]
      | some mp => simp [CreateModelProtoFromPath, hfs, hp]
  · intro bytes hb
    cases hp : parse bytes with
    | none => simp [CreateModelProtoFromPath, hb, hp]
    | some mp => simp [CreateModelProtoFromPath, hb, hp]
  · intro bytes mp hb hp
    simp [CreateModelProtoFromPath, hb, hp]
  · intro bytes
    cases hp : parse bytes with
    | none => simp [CreateModelProtoFromStream, hp]
    | some mp => simp [CreateModelProtoFromStream, hp]

/-- Witness for C5: a path that opens but whose bytes fail to parse
yields the parse-failure condition. -/
theorem C5_create_model_proto_witness :
    CreateModelProtoFromPath (fun _ => OpenResult.ok [0])
      (fun _ => none) "model.onnx" = .error .invalidArg :=
  ((C5_create_model_proto (fun _ => OpenResult.ok [0]) (fun _ => none)
    "model.onnx").2.1 [0] rfl).mpr rfl

/-- C6: detach hands the wrapper's parsed structure to the caller and
leaves the wrapper holding null; session LoadModel consumes the
descriptor exactly this way, so after loading the session owns what the
wrapper held and the wrapper's get yields the null state. -/
theorem C6_detach_ownership (w : ModelProtoWrapper) (s : SessionState) :
    (w.detach).1 = w.get ∧ ((w.detach).2).get = none ∧
    (LoadModel s w).1.loaded_model = w.get ∧
    ((LoadModel s w).2).get = none :=
  ⟨rfl, rfl, rfl, rfl⟩

/-! ### Claims about the map-type classification lookups -/

/-- C7: both lookups always return `S_OK`; each supported key/value pair
(string/int64 keys crossed with string/int64/float/double values for
maps, string-to-float and int64-to-float for vector-of-maps) is mapped to
its element types; every type outside the closed matched set yields
undefined/undefined. -/
theorem C7_map_type_classification :
    (∀ t, (GetMapType t).1 = .S_OK ∧ (GetVectorMapType t).1 = .S_OK) ∧
    GetMapType .mapStringToString = (.S_OK, .string, .string) ∧
    GetMapType .mapStringToInt64 = (.S_OK, .string, .int64) ∧
    GetMapType .mapStringToFloat = (.S_OK, .string, .float) ∧
    GetMapType .mapStringToDouble = (.S_OK, .string, .double) ∧
    GetMapType .mapInt64ToString = (.S_OK, .int64, .string) ∧
    GetMapType .mapInt64ToInt64 = (.S_OK, .int64, .int64) ∧
    GetMapType .mapInt64ToFloat = (.S_OK, .int64, .float) ∧
    GetMapType .mapInt64ToDouble = (.S_OK, .int64, .double) ∧
    GetVectorMapType .vectorMapStringToFloat = (.S_OK, .string, .float) ∧
    GetVectorMapType .vectorMapInt64ToFloat = (.S_OK, .int64, .float) ∧
    (∀ t, t ∉ ([.mapStringToString, .mapStringToInt64, .mapStringToFloat,
        .mapStringToDouble, .mapInt64ToString, .mapInt64ToInt64,
        .mapInt64ToFloat, .mapInt64ToDouble] : List OrtDataType) →
      (GetMapType t).2 = (.undefined, .undefined)) ∧
    (∀ t, t ∉ ([.vectorMapStringToFloat, .vectorMapInt64ToFloat] :
        List OrtDataType) →
      (GetVectorMapType t).2 = (.undefined, .undefined)) := by
  refine ⟨fun t => ?_, rfl, rfl, rfl, rfl, rfl, rfl, rfl, rfl, rfl, rfl,
    fun t ht => ?_, fun t ht => ?_⟩
  · cases t <;> exact ⟨rfl, rfl⟩
  · cases t <;> first | rfl | exact absurd (by decide) ht
  · cases t <;> first | rfl | exact absurd (by decide) ht

/-- Witness for C7: a type outside both matched sets classifies as
undefined/undefined under both lookups. -/
theorem C7_map_type_classification_witness :
    (GetMapType (.other 0)).2 = (.undefined, .undefined) ∧
    (GetVectorMapType (.other 0)).2 = (.undefined, .undefined) :=
  ⟨C7_map_type_classification.2.2.2.2.2.2.2.2.2.2.2.1 (.other 0) (by decide),
   C7_map_type_classification.2.2.2.2.2.2.2.2.2.2.2.2 (.other 0) (by decide)⟩

/-! ### Claims about output binding -/

/-- Folding output binds appends one slot per bind, an empty slot for each
null value. -/
lemma bindOutputs_outputs (binds : List (String × Option OrtValueSlot)) :
    ∀ b : InnerIOBinding, (bindOutputs b binds).outputs =
      b.outputs ++ binds.map (fun p => p.2.getD .empty) := by
  induction binds with
  | nil => intro b; simp [bindOutputs]
  | cons p rest ih =>
    intro b
    cases hp : p.2 with
    | none =>
      simp only [bindOutputs, List.foldl_cons] at ih ⊢
      rw [ih, hp]
      simp [BindOutput, InnerIOBinding.bindOutput, hp]
    | some v =>
      simp only [bindOutputs, List.foldl_cons] at ih ⊢
      rw [ih, hp]
      simp [BindOutput, InnerIOBinding.bindOutput, hp]

/-- C8: binding an output — in particular to the explicit null/unbound
marker — returns `S_OK`, and an immediate output-values fetch after a
sequence of binds returns one slot per bound output, with each
null-bound output's slot holding the empty value. -/
theorem C8_bind_output_unbound
    (binds : List (String × Option OrtValueSlot)) :
    (∀ (b : InnerIOBinding) (name : String) (v : Option OrtValueSlot),
      (BindOutput b name v).1 = .S_OK) ∧
    IOBindingGetOutputs (bindOutputs ⟨[], []⟩ binds) =
      binds.map (fun p => p.2.getD .empty) ∧
    (IOBindingGetOutputs (bindOutputs ⟨[], []⟩ binds)).length =
      binds.length := by
  have houts : IOBindingGetOutputs (bindOutputs ⟨[], []⟩ binds) =
      binds.map (fun p => p.2.getD .empty) := by
    simpa [IOBindingGetOutputs] using bindOutputs_outputs binds ⟨[], []⟩
  refine ⟨fun b name v => ?_, houts, ?_⟩
  · cases v <;> rfl
  · rw [houts, List.length_map]

/-! ### Claim about non-tensor, non-image features -/

/-- A model whose only content is one fp16 initializer. -/
def fp16InitializerModel : ModelProto :=
  { emptyModel with graph :=
    { emptyGraph with initializer := [{ name := "w", data_type := 10 }] } }

/-- C10: a feature descriptor that is neither an image nor a tensor
descriptor is never classified as fp16, so replacing all input and output
features by such descriptors leaves the fp16-incapable compatibility
check deciding exactly as it would with no features at all — they can
never trigger the unsupported failure. -/
theorem C10_non_tensor_features (ins outs : List FeatureDescriptor)
    (m : ModelProto) :
    (∀ d : FeatureDescriptor, d.isImage = false → d.isTensor = false →
      IsFeatureDescriptorFp16 d = false) ∧
    ((∀ d ∈ ins, d.isImage = false ∧ d.isTensor = false) →
     (∀ d ∈ outs, d.isImage = false ∧ d.isTensor = false) →
      EnsureModelDeviceCompatibility ins outs m false =
        EnsureModelDeviceCompatibility [] [] m false) := by
  have hfp : ∀ d : FeatureDescriptor, d.isImage = false →
      d.isTensor = false → IsFeatureDescriptorFp16 d = false := by
    intro d h1 h2
    cases d <;> simp_all [FeatureDescriptor.isImage,
      FeatureDescriptor.isTensor, IsFeatureDescriptorFp16]
  refine ⟨hfp, fun hins houts => ?_⟩
  have hinok : checkFeatures CompatError.fp16Input ins = .ok () := by
    rw [checkFeatures_ok_iff]
    rintro ⟨d, hd, hfp16⟩
    rw [hfp d (hins d hd).1 (hins d hd).2] at hfp16
    exact Bool.false_ne_true hfp16
  have houtok : checkFeatures CompatError.fp16Output outs = .ok () := by
    rw [checkFeatures_ok_iff]
    rintro ⟨d, hd, hfp16⟩
    rw [hfp d (houts d hd).1 (houts d hd).2] at hfp16
    exact Bool.false_ne_true hfp16
  simp only [ensure_false_eq, hinok, houtok, checkFeatures]

/-- Witness for C10: with a map input, a sequence output and an fp16
initializer, the check decides exactly as with no features (here: it
fails on the initializer either way). -/
theorem C10_non_tensor_features_witness :
    EnsureModelDeviceCompatibility [FeatureDescriptor.map "m0"]
      [FeatureDescriptor.sequence "s0"] fp16InitializerModel false =
      EnsureModelDeviceCompatibility [] [] fp16InitializerModel false :=
  (C10_non_tensor_features [FeatureDescriptor.map "m0"]
    [FeatureDescriptor.sequence "s0"] fp16InitializerModel).2
    (by decide) (by decide)

end WinMLAdapter
